import Mathlib

/-!
Verification development for the DomoticzWrapper repository.

The Python sources DomoticzPluginHelper.py and DomoticzWrapper.py are
shallowly embedded. Pure helpers become Lean functions, the host HTTP
boundary becomes explicit data (a request value and a response value),
and Python exceptions become an explicit Except layer. Strings are
assumed to be ASCII encoded, Python integers are unbounded so Int and
Nat model them exactly, and floating point values are outside the model.
-/

/-- Python exception kinds raised by the embedded code. -/
inductive PyErr
  | valueError
  | typeError
  | keyError
deriving DecidableEq

/-- One host log line: Domoticz.Debug, Domoticz.Log, Domoticz.Status or
Domoticz.Error. -/
inductive LogMsg
  | debug (s : String)
  | log (s : String)
  | status (s : String)
  | error (s : String)
deriving DecidableEq

/-- ASCII whitespace recognized by the Python str.strip method (the model
restricts the unicode whitespace set to its ASCII part). -/
def isPySpace (c : Char) : Bool :=
  c = ' ' || c = '\t' || c = '\n' || c = '\r' || c = Char.ofNat 11 || c = Char.ofNat 12

/-- Python str.strip with no argument: remove leading and trailing
whitespace. -/
def pyStrip (l : List Char) : List Char :=
  ((l.dropWhile isPySpace).reverse.dropWhile isPySpace).reverse

/-- Digit-and-underscore tail of the Python int literal grammar: a digit
extends the accumulator, an underscore is allowed only between digits. -/
def pyDigitsVal : Nat → List Char → Option Nat
  | acc, [] => some acc
  | acc, c :: cs =>
    if c.isDigit then pyDigitsVal (10 * acc + (c.toNat - 48)) cs
    else if c = '_' then
      match cs with
      | c2 :: _ => if c2.isDigit then pyDigitsVal acc cs else Option.none
      | [] => Option.none
    else Option.none

/-- Unsigned part of a Python int literal: at least one digit, then the
digit-and-underscore tail. -/
def pyIntBody (l : List Char) : Option Nat :=
  match l with
  | [] => Option.none
  | c :: cs => if c.isDigit then pyDigitsVal (c.toNat - 48) cs else Option.none

/-- The Python builtin int applied to a string: surrounding whitespace is
ignored, then an optional sign and a nonempty digit sequence with optional
single underscores between digits; every other string raises ValueError,
modelled as Option.none. -/
def pyIntOfChars (l : List Char) : Option Int :=
  match pyStrip l with
  | '-' :: rest => (pyIntBody rest).map (fun n => -(n : Int))
  | '+' :: rest => (pyIntBody rest).map (fun n => (n : Int))
  | l2 => (pyIntBody l2).map (fun n => (n : Int))

/-- Python values that can reach CheckParam in the model: strings,
integers, None and integer lists stand in for the possible parameter
values (floats are outside the model). -/
inductive PyVal
  | str (s : String)
  | int (n : Int)
  | none
  | list (xs : List Int)
deriving DecidableEq

/-- Rendering of an integer list as Python str would print it; used only
inside a log message. -/
def intListStr : List Int → String
  | [] => ""
  | [x] => toString x
  | x :: xs => toString x ++ ", " ++ intListStr xs

/-- The Python builtin str on a PyVal, used to build log messages. -/
def pyValStr : PyVal → String
  | .str s => s
  | .int n => toString n
  | .none => "None"
  | .list xs => "[" ++ intListStr xs ++ "]"

/-- The Python builtin int applied to a PyVal: an int is returned as is, a
string goes through the int literal grammar (ValueError on failure), and
None or a list raises TypeError. -/
def pyIntCoerce : PyVal → Except PyErr Int
  | .int n => .ok n
  | .str s =>
    match pyIntOfChars s.data with
    | some n => .ok n
    | Option.none => .error .valueError
  | .none => .error .typeError
  | .list _ => .error .typeError

/-- The error message format of DomoticzPluginHelper.CheckParam, lines
122-123 of DomoticzPluginHelper.py. -/
def checkParamMsg (name : String) (value : PyVal) (default : Int) : String :=
  "Parameter \x27" ++ name ++ "\x27 has an invalid value of \x27" ++ pyValStr value ++
    "\x27 ! default of \x27" ++ toString default ++ "\x27 is instead used."

/-- DomoticzPluginHelper.CheckParam, lines 107-124 of
DomoticzPluginHelper.py: param = int(value) inside a try block whose
except clause catches only ValueError; on ValueError the default is used
and an error is logged; any other exception (TypeError in particular)
escapes to the caller. -/
def CheckParam (name : String) (value : PyVal) (default : Int) :
    Except PyErr (Int × List LogMsg) :=
  match pyIntCoerce value with
  | .ok param => .ok (param, [])
  | .error .valueError => .ok (default, [LogMsg.error (checkParamMsg name value default)])
  | .error e => .error e

/-- Worker for the Python str.split method with separator a comma. -/
def splitCommaAux : List Char → List Char → List (List Char)
  | cur, [] => [cur.reverse]
  | cur, c :: cs =>
    if c = ',' then cur.reverse :: splitCommaAux [] cs
    else splitCommaAux (c :: cur) cs

/-- Python strCSV.split with a comma separator: the empty string gives one
empty field and consecutive commas give empty fields. -/
def pySplitComma (l : List Char) : List (List Char) := splitCommaAux [] l

/-- The loop body of ParseCSV, lines 245-250 of DomoticzPluginHelper.py:
try int(value.strip()), append on success, pass on any exception. -/
def parseCSVStep (listValues : List Int) (value : List Char) : List Int :=
  match pyIntOfChars (pyStrip value) with
  | some val => listValues ++ [val]
  | Option.none => listValues

/-- ParseCSV, lines 242-251 of DomoticzPluginHelper.py: iterate over the
comma-separated fields applying the loop body. The loop appends at the
end of the accumulated list exactly as the Python code does. -/
def ParseCSV (strCSV : String) : List Int :=
  (pySplitComma strCSV.data).foldl parseCSVStep []

/-- The DomoticzDebugLevel enumeration of DomoticzWrapper.py, lines 14-36.
The members are plain Enum members, not IntEnum members, so Python
arithmetic on them raises TypeError. -/
inductive DomoticzDebugLevel
  | ShowNone
  | ShowAll
  | DebugFuncCalls
  | DebugHighLevelMessages
  | DebugDevices
  | DebugConnections
  | DebugImages
  | DumpData
  | DebugMessageQueue
deriving DecidableEq

/-- Mask value of each debug level as declared in the Python enumeration. -/
def DomoticzDebugLevel.value : DomoticzDebugLevel → Nat
  | .ShowNone => 0
  | .ShowAll => 1
  | .DebugFuncCalls => 2
  | .DebugHighLevelMessages => 4
  | .DebugDevices => 8
  | .DebugConnections => 16
  | .DebugImages => 32
  | .DumpData => 64
  | .DebugMessageQueue => 128

/-- The Python builtin sum applied to a list of plain Enum members: the
sum starts from the int 0, and 0 + member raises TypeError because Enum
defines no addition, so only the empty list sums (to 0). -/
def pySumDebugLevels : List DomoticzDebugLevel → Except PyErr Nat
  | [] => .ok 0
  | _ :: _ => .error .typeError

/-- DomoticzWrapper.Debugging, lines 631-646 of DomoticzWrapper.py, for a
list argument. The first Python test (values is int) is identity with the
type int and is False for every list, so it is dropped here. The source
then tests ShowNone in values twice (line 643 repeats the line 641 test),
so the branch that would pass 1 for ShowAll is unreachable and such lists
fall through to sum(values). -/
def Debugging (values : List DomoticzDebugLevel) : Except PyErr Nat :=
  if DomoticzDebugLevel.ShowNone ∈ values then .ok 0
  else if DomoticzDebugLevel.ShowNone ∈ values then .ok 1
  else pySumDebugLevels values

/-- The host device methods a DomoticzDevice wrapper can invoke; the host
offers no refresh-from-database operation. -/
inductive HostDeviceCall
  | create
  | update
  | delete
  | touch
deriving DecidableEq

namespace DomoticzDevice

/-- DomoticzDevice.Delete, lines 178-180 of DomoticzWrapper.py: the trace
of host device calls it performs. -/
def Delete : List HostDeviceCall := [HostDeviceCall.delete]

/-- DomoticzDevice.Refresh, lines 182-186 of DomoticzWrapper.py: its body
invokes self. _Device.Delete, so the trace is a single delete call. -/
def Refresh : List HostDeviceCall := [HostDeviceCall.delete]

/-- DomoticzDevice.Touch, lines 188-192 of DomoticzWrapper.py. -/
def Touch : List HostDeviceCall := [HostDeviceCall.touch]

end DomoticzDevice

/-- The host image record wrapped by DomoticzImage, with the four fields
the wrapper exposes. -/
structure HostImage where
  hostID : Int
  hostName : String
  hostBase : String
  hostDescription : String

namespace DomoticzImage

/-- DomoticzImage.ID, lines 520-527 of DomoticzWrapper.py: returns the ID
field of the wrapped host image. -/
def ID (i : HostImage) : PyVal := PyVal.int i.hostID

/-- DomoticzImage.Name, lines 529-536 of DomoticzWrapper.py: the body
returns self. _image.ID. -/
def Name (i : HostImage) : PyVal := PyVal.int i.hostID

/-- DomoticzImage.Base, lines 538-546 of DomoticzWrapper.py: the body
returns self. _image.ID. -/
def Base (i : HostImage) : PyVal := PyVal.int i.hostID

/-- DomoticzImage.Description, lines 548-555 of DomoticzWrapper.py: the
body returns self. _image.ID. -/
def Description (i : HostImage) : PyVal := PyVal.int i.hostID

end DomoticzImage

/-- JSON values as returned by json.loads on a Domoticz API response
body: objects, arrays, strings and integers cover the payloads the
embedded code inspects. -/
inductive Jv
  | str (s : String)
  | int (n : Int)
  | arr (xs : List Jv)
  | obj (fields : List (String × Jv))

/-- Python equality between a JSON value and a string: True exactly for
the equal string, False (without raising) for every other value. -/
def jvEqStr : Jv → String → Bool
  | .str s, t => s == t
  | _, _ => false

/-- Python truthiness of a JSON value: empty containers, the empty string
and zero are falsy. -/
def jvTruthy : Jv → Bool
  | .obj f => !f.isEmpty
  | .arr a => !a.isEmpty
  | .str s => !(s == "")
  | .int n => !(n == 0)

/-- Python subscription value[key] with a string key: a dict lookup that
raises KeyError when the key is absent, and TypeError when the value is
not a dict. -/
def pyGetItem : Jv → String → Except PyErr Jv
  | .obj fields, k =>
    match fields.find? (fun p => p.1 == k) with
    | some p => .ok p.2
    | Option.none => .error .keyError
  | _, _ => .error .typeError

/-- Containment of one character list in another, used for the Python
substring test needle in haystack. -/
def isInfixOfChars : List Char → List Char → Bool
  | needle, [] => needle.isEmpty
  | needle, c :: t => needle.isPrefixOf (c :: t) || isInfixOfChars needle t

/-- The Python membership test key in value: key membership for a dict,
element membership for a list, substring test for a string, TypeError for
an integer. -/
def pyContains : Jv → String → Except PyErr Bool
  | .obj fields, k => .ok (fields.any (fun p => p.1 == k))
  | .arr xs, k => .ok (xs.any (fun j => jvEqStr j k))
  | .str s, k => .ok (isInfixOfChars k.data s.data)
  | .int _, _ => .error .typeError

/-- Rendering of a JSON value by the Python builtin str, used only inside
log messages (containers are abbreviated). -/
def jvStr : Jv → String
  | .str s => s
  | .int n => toString n
  | .arr _ => "[...]"
  | .obj _ => "\x7b...\x7d"

/-- The plugin parameters DomoticzAPI reads: Address, Port, Username and
Password from the hardware page, and Name which prefixes the user
variable. -/
structure Params where
  Address : String
  Port : String
  Username : String
  Password : String
  Name : String

/-- An HTTP request as built by urllib.request.Request: the url and the
added headers. -/
structure UrlRequest where
  url : String
  headers : List (String × String)
deriving DecidableEq

/-- Outcome of urllib.request.urlopen as observed by DomoticzAPI: either
some exception was raised, or a response arrived with a status code and a
body; the body is the json.loads result, Option.none meaning the body did
not parse as JSON (json.loads raises). -/
inductive HttpResult
  | raised
  | resp (status : Nat) (body : Option Jv)

/-- The host environment a DomoticzPluginHelper runs against: its
configured parameters and the behaviour of the HTTP boundary. -/
structure Env where
  params : Params
  urlopen : UrlRequest → HttpResult

/-- Characters urllib.parse.quote leaves unescaped when called with
safe="&=": ASCII letters and digits, the always safe characters
underscore, dot, dash and tilde, and the two caller supplied safe
characters. -/
def isQuoteSafe (c : Char) : Bool :=
  c.isAlphanum || c = '_' || c = '.' || c = '-' || c = '~' || c = '&' || c = '='

/-- UTF-8 bytes of a character, as Python encodes non safe characters
before percent escaping them. -/
def utf8Bytes (c : Char) : List Nat :=
  let n := c.toNat
  if n < 128 then [n]
  else if n < 2048 then [192 + n / 64, 128 + n % 64]
  else if n < 65536 then [224 + n / 4096, 128 + (n / 64) % 64, 128 + n % 64]
  else [240 + n / 262144, 128 + (n / 4096) % 64, 128 + (n / 64) % 64, 128 + n % 64]

/-- Uppercase hexadecimal digit, as used by urllib percent escapes. -/
def hexDigitU (n : Nat) : Char :=
  if n < 10 then Nat.digitChar n else Char.ofNat (65 + (n - 10))

/-- Percent escape of one byte. -/
def pctEncode (b : Nat) : List Char :=
  ['%', hexDigitU (b / 16), hexDigitU (b % 16)]

/-- urllib.parse.quote on a character list with safe="&=". -/
def pyQuoteChars (l : List Char) : List Char :=
  l.foldr
    (fun c acc =>
      (if isQuoteSafe c then [c] else ((utf8Bytes c).map pctEncode).flatten) ++ acc) []

/-- urllib.parse.quote with safe="&=", as called on line 79 of
DomoticzPluginHelper.py. -/
def pyQuote (s : String) : String := String.mk (pyQuoteChars s.data)

/-- The base64 alphabet. -/
def b64tbl (n : Nat) : Char :=
  "ABCDEFGHIJKLMNOPQRSTUVWXYZabcdefghijklmnopqrstuvwxyz0123456789+/".data.getD n 'A'

/-- base64.b64encode on a byte list. -/
def b64encodeBytes : List Nat → List Char
  | [] => []
  | [b1] => [b64tbl (b1 / 4), b64tbl ((b1 % 4) * 16), '=', '=']
  | [b1, b2] => [b64tbl (b1 / 4), b64tbl ((b1 % 4) * 16 + b2 / 16), b64tbl ((b2 % 16) * 4), '=']
  | b1 :: b2 :: b3 :: rest =>
    b64tbl (b1 / 4) :: b64tbl ((b1 % 4) * 16 + b2 / 16) ::
      b64tbl ((b2 % 16) * 4 + b3 / 64) :: b64tbl (b3 % 64) :: b64encodeBytes rest

/-- The value of the Authorization header DomoticzAPI attaches, lines
86-91 of DomoticzPluginHelper.py: Basic followed by the base64 encoding
of the ASCII bytes of Username:Password (strings are assumed ASCII, each
character being one byte). -/
def basicAuthToken (user pass' : String) : String :=
  "Basic " ++ String.mk (b64encodeBytes ((user ++ ":" ++ pass').data.map Char.toNat))

/-- The request DomoticzAPI sends, lines 78-91 of
DomoticzPluginHelper.py: the url formats Address, Port and the quoted
apiCall, and the Authorization header is added exactly when Username is
not the empty string. -/
def buildRequest (ps : Params) (apiCall : String) : UrlRequest :=
  let url := "http://" ++ ps.Address ++ ":" ++ ps.Port ++ "/json.htm?" ++ pyQuote apiCall
  if ps.Username == "" then { url := url, headers := [] }
  else { url := url, headers := [("Authorization", basicAuthToken ps.Username ps.Password)] }

/-- Result of one DomoticzAPI call: the request it issued, the log lines
it emitted, and the value returned to the caller (Option.none models the
Python None). -/
structure ApiResult where
  request : UrlRequest
  log : List LogMsg
  result : Option Jv

/-- The debug lines DomoticzAPI emits before opening the connection,
lines 80-85 of DomoticzPluginHelper.py. -/
def apiCallLogs (ps : Params) (req : UrlRequest) : List LogMsg :=
  [LogMsg.debug ("Calling domoticz API: " ++ req.url)] ++
    (if ps.Username == "" then []
     else [LogMsg.debug ("Add authentication for user " ++ ps.Username)])

/-- Log and result of one DomoticzAPI call, given the outcome of the
HTTP boundary, lines 93-105 of DomoticzPluginHelper.py. A 200 response
with a parsed body whose status field equals OK is returned; a 200
response whose status field differs logs an error; a non 200 response
logs an http error; an unparsable body or a missing status field raises
inside the try block, which the bare except clause turns into the error
calling log and a None result (as it does for a raise of urlopen
itself). -/
def apiOutcome (req : UrlRequest) (lg0 : List LogMsg) :
    HttpResult → List LogMsg × Option Jv
  | .raised =>
    (lg0 ++ [LogMsg.error ("Error calling \x27" ++ req.url ++ "\x27")], Option.none)
  | .resp st body =>
    if st == 200 then
      match body with
      | Option.none =>
        (lg0 ++ [LogMsg.error ("Error calling \x27" ++ req.url ++ "\x27")], Option.none)
      | some j =>
        match pyGetItem j "status" with
        | .error _ =>
          (lg0 ++ [LogMsg.error ("Error calling \x27" ++ req.url ++ "\x27")], Option.none)
        | .ok v =>
          if jvEqStr v "OK" then (lg0, some j)
          else
            (lg0 ++ [LogMsg.error ("Domoticz API returned an error: status = " ++ jvStr v)],
              Option.none)
    else
      (lg0 ++ [LogMsg.error ("Domoticz API: http error = " ++ toString st)], Option.none)

/-- DomoticzPluginHelper.DomoticzAPI, lines 76-105 of
DomoticzPluginHelper.py: build the request, emit the debug lines, submit
the request to the HTTP boundary and classify the outcome. The whole
Python body sits in a try block with a bare except clause, so every raise
inside it is converted into an error log and a None result, never a
propagated exception. -/
def DomoticzAPI (env : Env) (apiCall : String) : ApiResult :=
  let req := buildRequest env.params apiCall
  let lg0 := apiCallLogs env.params req
  let o := apiOutcome req lg0 (env.urlopen req)
  { request := req, log := o.1, result := o.2 }

/-- The internal state mapping held in self.Internals: a Python dict from
string keys to integer values, in insertion order (the model fixes the
scalar values to integers). -/
abbrev Dict := List (String × Int)

/-- The single quote character. -/
def squote : Char := Char.ofNat 39

/-- The opening brace character. -/
def lbrace : Char := Char.ofNat 123

/-- The closing brace character. -/
def rbrace : Char := Char.ofNat 125

/-- Decimal digits of a natural number, most significant first, computed
with explicit fuel so that it reduces definitionally. -/
def reprNatAux : Nat → Nat → List Char
  | 0, _ => []
  | fuel + 1, n =>
    if n < 10 then [Nat.digitChar n]
    else reprNatAux fuel (n / 10) ++ [Nat.digitChar (n % 10)]

/-- Python repr of a nonnegative integer. -/
def reprNat (n : Nat) : List Char := reprNatAux (n + 1) n

/-- Python repr of an integer. -/
def reprInt (v : Int) : List Char :=
  if v < 0 then '-' :: reprNat v.natAbs else reprNat v.toNat

/-- Python repr of one dict entry: quoted key, colon, space, value. -/
def reprEntry (e : String × Int) : List Char :=
  squote :: e.1.data ++ squote :: ':' :: ' ' :: reprInt e.2

/-- Python repr of the comma separated entries of a dict. -/
def reprEntries : List (String × Int) → List Char
  | [] => []
  | [e] => reprEntry e
  | e :: rest => reprEntry e ++ ',' :: ' ' :: reprEntries rest

/-- Python str of a dict of integers, as written by str(self.Internals)
on line 202 of DomoticzPluginHelper.py. -/
def reprDict (d : Dict) : List Char := lbrace :: (reprEntries d ++ [rbrace])

/-- Greedy digit run consumer: extends the accumulator while the head is
a digit and stops at the first non digit. -/
def parseNatAux : Nat → List Char → Nat × List Char
  | acc, [] => (acc, [])
  | acc, c :: cs =>
    if c.isDigit then parseNatAux (10 * acc + (c.toNat - 48)) cs else (acc, c :: cs)

/-- Parse a nonempty digit run. -/
def parseNatPos (l : List Char) : Option (Nat × List Char) :=
  match l with
  | [] => Option.none
  | c :: cs => if c.isDigit then some (parseNatAux (c.toNat - 48) cs) else Option.none

/-- Parse an optionally negated digit run, the integer literal form that
repr emits. -/
def parseIntLit (l : List Char) : Option (Int × List Char) :=
  match l with
  | [] => Option.none
  | c :: cs =>
    if c = '-' then (parseNatPos cs).map (fun p => (-(p.1 : Int), p.2))
    else (parseNatPos (c :: cs)).map (fun p => ((p.1 : Int), p.2))

/-- Consume key characters up to and including the closing single quote. -/
def parseKeyChars : List Char → Option (List Char × List Char)
  | [] => Option.none
  | c :: cs =>
    if c = squote then some ([], cs)
    else
      match parseKeyChars cs with
      | some (k, rest) => some (c :: k, rest)
      | Option.none => Option.none

/-- Parse one quoted-key colon space value entry. -/
def parseEntry (l : List Char) : Option ((String × Int) × List Char) :=
  match l with
  | [] => Option.none
  | c :: cs =>
    if c = squote then
      match parseKeyChars cs with
      | some (k, rest) =>
        if rest.take 2 = [':', ' '] then
          match parseIntLit (rest.drop 2) with
          | some (v, rest3) => some ((String.mk k, v), rest3)
          | Option.none => Option.none
        else Option.none
      | Option.none => Option.none
    else Option.none

/-- Parse one or more comma separated entries, with fuel bounding the
number of entries. -/
def parseEntriesAux : Nat → List Char → Option (List (String × Int) × List Char)
  | 0, _ => Option.none
  | fuel + 1, l =>
    match parseEntry l with
    | Option.none => Option.none
    | some (e, rest) =>
      if rest.take 2 = [',', ' '] then
        match parseEntriesAux fuel (rest.drop 2) with
        | some (d, rest3) => some (e :: d, rest3)
        | Option.none => Option.none
      else some ([e], rest)

/-- Inverse of reprDict on its own image: accepts exactly the canonical
dict literal form and yields the dict; every other string is rejected.
This models the composition of the Python eval call on line 189 of
DomoticzPluginHelper.py with the requirement that the result be a dict of
integers: eval raising, and dict.update raising on a non dict, are both
caught by the surrounding bare except, which the model folds into
Option.none. -/
def evalDictChars (l : List Char) : Option Dict :=
  if l.head? = some lbrace then
    if l.tail = [rbrace] then some []
    else
      match parseEntriesAux l.tail.length l.tail with
      | some (d, rest) => if rest = [rbrace] then some d else Option.none
      | Option.none => Option.none
  else Option.none

/-- Python d[k] = v on an assoc list dict: replace the value of the first
matching key or append a fresh binding. -/
def pySetItem : Dict → String → Int → Dict
  | [], k, v => [(k, v)]
  | (k0, v0) :: t, k, v =>
    if k0 = k then (k0, v) :: t else (k0, v0) :: pySetItem t k v

/-- Python dict.update: write every binding of the update dict into the
base dict in order. -/
def pyDictUpdate (d upd : Dict) : Dict :=
  upd.foldl (fun acc kv => pySetItem acc kv.1 kv.2) d

/-- Line 189 of DomoticzPluginHelper.py, self.Internals.update(
eval(valuestring)), under the try block: eval of a non string raises
TypeError, a string outside the dict literal grammar fails, and both are
caught by the bare except; a successful parse updates the internals. -/
def pyEvalUpdate (internals : Dict) (valuestring : Jv) : Option Dict :=
  match valuestring with
  | .str s => (evalDictChars s.data).map (pyDictUpdate internals)
  | _ => Option.none

/-- The loop of lines 154-158 of DomoticzPluginHelper.py: scan the result
entries for the first one whose Name equals varname and return its Value;
subscription of a malformed entry raises. -/
def findVarLoop (varname : String) : List Jv → Except PyErr (Option Jv)
  | [] => .ok Option.none
  | v :: rest =>
    match pyGetItem v "Name" with
    | .error e => .error e
    | .ok nm =>
      if jvEqStr nm varname then
        match pyGetItem v "Value" with
        | .error e => .error e
        | .ok val => .ok (some val)
      else findVarLoop varname rest

/-- Lines 153-158 of DomoticzPluginHelper.py: the membership test result
in variables followed by the scan of variables over the result list. A
result value that is not a list is iterated by Python; every such
iteration either performs zero rounds (modelled for the empty dict and
the empty string) or raises TypeError when the loop body subscripts the
iterated element with a string. -/
def lookupVar (vrbls : Jv) (varname : String) : Except PyErr (Option Jv) :=
  match pyContains vrbls "result" with
  | .error e => .error e
  | .ok false => .ok Option.none
  | .ok true =>
    match pyGetItem vrbls "result" with
    | .error e => .error e
    | .ok (.arr items) => findVarLoop varname items
    | .ok (.obj []) => .ok Option.none
    | .ok (.str "") => .ok Option.none
    | .ok _ => .error .typeError

/-- Kinds of characters distinguished by the LooseVersion component
regular expression: digit runs, lowercase runs, single dots, and
everything else. -/
inductive VChunk
  | digit
  | lower
  | dot
  | other
deriving DecidableEq

/-- Chunk kind of one character. -/
def vchunkOf (c : Char) : VChunk :=
  if c.isDigit then .digit
  else if c.isLower then .lower
  else if c = '.' then .dot
  else .other

/-- Split a version string into maximal runs of one chunk kind. -/
def looseRuns : List Char → Option (VChunk × List Char) → List (VChunk × List Char)
  | [], Option.none => []
  | [], some (k, run) => [(k, run.reverse)]
  | c :: cs, Option.none => looseRuns cs (some (vchunkOf c, [c]))
  | c :: cs, some (k, run) =>
    if vchunkOf c = k then looseRuns cs (some (k, c :: run))
    else (k, run.reverse) :: looseRuns cs (some (vchunkOf c, [c]))

/-- One LooseVersion component: an integer for a digit run, otherwise the
run itself as a string. -/
inductive VComp
  | num (n : Nat)
  | txt (s : String)
deriving DecidableEq

/-- distutils LooseVersion parsing: split into runs, drop the dots, turn
digit runs into integers and keep other runs as strings. -/
def looseParse (s : String) : List VComp :=
  ((looseRuns s.data Option.none).filter (fun p => p.1 ≠ VChunk.dot)).map
    (fun p => if p.1 = VChunk.digit then VComp.num ((parseNatAux 0 p.2).1) else VComp.txt (String.mk p.2))

/-- Python equality between two LooseVersion components: mixed types
compare unequal without raising. -/
def vcompEq : VComp → VComp → Bool
  | .num a, .num b => a == b
  | .txt a, .txt b => a == b
  | _, _ => false

/-- Python ordering between two LooseVersion components: mixed types
raise TypeError in Python 3. -/
def vcompGe : VComp → VComp → Except PyErr Bool
  | .num a, .num b => .ok (b ≤ a)
  | .txt a, .txt b => .ok (b ≤ a)
  | _, _ => .error .typeError

/-- Python list comparison for the greater or equal test between two
component lists: lexicographic, with the prefix rule on exhaustion. -/
def vlistGe : List VComp → List VComp → Except PyErr Bool
  | [], [] => .ok true
  | [], _ :: _ => .ok false
  | _ :: _, [] => .ok true
  | a :: as', b :: bs =>
    if vcompEq a b then vlistGe as' bs else vcompGe a b

/-- The api call string requesting the user variables. -/
def getUserVarsCall : String := "type=command&param=getuservariables"

/-- The api call string requesting the Domoticz version. -/
def getVersionCall : String := "type=command&param=getversion"

/-- Lines 168-179 of DomoticzPluginHelper.py: fetch the Domoticz version
and pick adduservariable for dzvents version at least 2.4.9, otherwise
saveuservariable; subscription of a version response without a
dzvents_version field and LooseVersion on a malformed value raise. The
returned log also carries the log lines of the nested DomoticzAPI call. -/
def chooseSaveParam (env : Env) : Except PyErr (String × List LogMsg) :=
  let r2 := DomoticzAPI env getVersionCall
  match r2.result with
  | Option.none =>
    .ok ("saveuservariable",
      r2.log ++ [LogMsg.error "Unable to fetch Domoticz info... unable to determine version"])
  | some info =>
    if jvTruthy info then
      match pyGetItem info "dzvents_version" with
      | .error e => .error e
      | .ok (.str s) =>
        match vlistGe (looseParse s) (looseParse "2.4.9") with
        | .error e => .error e
        | .ok true =>
          .ok ("adduservariable",
            r2.log ++ [LogMsg.log "Use \x27adduservariable\x27 instead of \x27saveuservariable\x27"])
        | .ok false => .ok ("saveuservariable", r2.log)
      | .ok _ => .error .typeError
    else .ok ("saveuservariable", r2.log)

/-- The log message announcing the creation of the user variable, lines
161-162 of DomoticzPluginHelper.py; WriteLog with level Verbose goes to
Domoticz.Log because the helper fixes logLevel to Verbose. -/
def noVarMsg (varname : String) : String :=
  "User Variable " ++ varname ++ " does not exist. Creation requested"

/-- The error message of lines 194-195 of DomoticzPluginHelper.py. -/
def cannotReadMsg : String :=
  "Cannot read the uservariable holding the persistent variables"

/-- DomoticzPluginHelper.GetUserVar, lines 145-196 of
DomoticzPluginHelper.py. The function returns the new value of
self.Internals together with the emitted log, or the exception that
escaped. A missing or falsy API result resets the internals to the
defaults with an error log; a present variable is parsed and merged into
the internals, resetting to the defaults when the parse fails; an absent
variable triggers the creation path, which always ends by resetting the
internals to a copy of the defaults. -/
def GetUserVar (env : Env) (defaults internals : Dict) :
    Except PyErr (Dict × List LogMsg) :=
  let r1 := DomoticzAPI env getUserVarsCall
  match r1.result with
  | Option.none => .ok (defaults, r1.log ++ [LogMsg.error cannotReadMsg])
  | some vrbls =>
    if jvTruthy vrbls then
      let varname := env.params.Name ++ "-InternalVariables"
      match lookupVar vrbls varname with
      | .error e => .error e
      | .ok (some valuestring) =>
        match pyEvalUpdate internals valuestring with
        | some d => .ok (d, r1.log)
        | Option.none => .ok (defaults, r1.log)
      | .ok Option.none =>
        match chooseSaveParam env with
        | .error e => .error e
        | .ok (parameter, lg2) =>
          let r3 := DomoticzAPI env ("type=command&param=" ++ parameter ++ "&vname=" ++
            varname ++ "&vtype=2&vvalue=" ++ String.mk (reprDict defaults))
          .ok (defaults, r1.log ++ [LogMsg.log (noVarMsg varname)] ++ lg2 ++ r3.log)
    else .ok (defaults, r1.log ++ [LogMsg.error cannotReadMsg])

/-- The host user variable store: named string values kept by Domoticz,
in creation order. -/
structure HostStore where
  vars : List (String × String)

/-- Effect of the updateuservariable api call on the host store: the
first binding of the name is overwritten, a missing name is appended. -/
def hostSetVar : List (String × String) → String → String → List (String × String)
  | [], n, v => [(n, v)]
  | (n0, v0) :: t, n, v =>
    if n0 = n then (n0, v) :: t else (n0, v0) :: hostSetVar t n v

/-- DomoticzPluginHelper.SaveUserVar, lines 198-202 of
DomoticzPluginHelper.py: issue updateuservariable for the variable named
Name-InternalVariables with value str(self.Internals). The claim under
verification assumes the host store faithfully records the written value,
so the call is modelled as the store update itself. -/
def SaveUserVar (ps : Params) (store : HostStore) (internals : Dict) : HostStore :=
  ⟨hostSetVar store.vars (ps.Name ++ "-InternalVariables") (String.mk (reprDict internals))⟩

/-- The JSON entry the host returns for one stored user variable. -/
def storeEntry (p : String × String) : Jv :=
  Jv.obj [("Name", Jv.str p.1), ("Value", Jv.str p.2)]

/-- The JSON body the host returns for the getuservariables api call. -/
def varsToJson (vars : List (String × String)) : Jv :=
  Jv.obj [("status", Jv.str "OK"), ("result", Jv.arr (vars.map storeEntry))]

/-- A host environment backed by a reliable user variable store: the
getuservariables url is answered from the store with an OK status and
every other request fails. -/
def storeEnv (ps : Params) (store : HostStore) : Env :=
  { params := ps,
    urlopen := fun req =>
      if req.url = "http://" ++ ps.Address ++ ":" ++ ps.Port ++ "/json.htm?" ++ pyQuote getUserVarsCall
      then HttpResult.resp 200 (some (varsToJson store.vars))
      else HttpResult.raised }

/-- Characters whose Python repr inside a quoted string is the character
itself: letters, digits, underscore and dash, the shapes used by plugin
state keys. -/
def keyCharOK (c : Char) : Bool := c.isAlphanum || c = '_' || c = '-'

/-- Well formed internal state: the dict invariant of distinct keys, and
keys drawn from repr safe characters, so that repr and eval invert.
Stated as an abbreviation so that decidability is inherited. -/
abbrev DictWF (d : Dict) : Prop :=
  (d.map Prod.fst).Nodup ∧ ∀ p ∈ d, ∀ c ∈ (p.1 : String).data, keyCharOK c = true

/-- Concrete plugin parameters used by the concrete evaluations below. -/
def psBase : Params :=
  { Address := "127.0.0.1", Port := "8080", Username := "", Password := "", Name := "SVT" }

/-- Concrete plugin parameters with a configured username. -/
def psAuth : Params :=
  { Address := "127.0.0.1", Port := "8080", Username := "admin", Password := "secret", Name := "SVT" }

/-- A concrete internal state mapping. -/
def internalsEx : Dict := [("ConstC", 60), ("ConstT", 0)]

/-- A concrete default mapping, distinct from internalsEx. -/
def defaultsEx : Dict := [("ConstC", 20), ("ConstT", 1)]

/-- An environment whose HTTP boundary always raises. -/
def envRaised : Env := { params := psBase, urlopen := fun _ => HttpResult.raised }

/-- An environment answering every request with an HTTP 404 and no body. -/
def env404 : Env :=
  { params := psBase, urlopen := fun _ => HttpResult.resp 404 Option.none }

/-- An environment answering every request with HTTP 200 and a JSON body
whose status field is ERR. -/
def envErrStatus : Env :=
  { params := psBase,
    urlopen := fun _ => HttpResult.resp 200 (some (Jv.obj [("status", Jv.str "ERR")])) }

/-- An environment whose getuservariables answer has an OK status but a
result entry that is an empty object, without Name or Value fields. -/
def envBadEntry : Env :=
  { params := psBase,
    urlopen := fun req =>
      if req.url = (buildRequest psBase getUserVarsCall).url then
        HttpResult.resp 200 (some (Jv.obj
          [("status", Jv.str "OK"), ("result", Jv.arr [Jv.obj []])]))
      else HttpResult.raised }

/-- An environment where the stored user variable holds a value that does
not parse back into a mapping. -/
def envCorrupt : Env :=
  { params := psBase,
    urlopen := fun req =>
      if req.url = (buildRequest psBase getUserVarsCall).url then
        HttpResult.resp 200 (some (Jv.obj
          [("status", Jv.str "OK"),
           ("result", Jv.arr [Jv.obj [("Name", Jv.str "SVT-InternalVariables"),
             ("Value", Jv.str "garbage")]])]))
      else HttpResult.raised }

/-- An environment where the user variable is absent (empty result list)
and the getversion answer, although status OK, carries no dzvents_version
field. -/
def envNoVarBadVersion : Env :=
  { params := psBase,
    urlopen := fun req =>
      if req.url = (buildRequest psBase getUserVarsCall).url then
        HttpResult.resp 200 (some (Jv.obj
          [("status", Jv.str "OK"), ("result", Jv.arr [])]))
      else if req.url = (buildRequest psBase getVersionCall).url then
        HttpResult.resp 200 (some (Jv.obj [("status", Jv.str "OK")]))
      else HttpResult.raised }

/-- Value of a digit character list read most significant first on top
of an accumulator. -/
def valAcc (acc : Nat) (l : List Char) : Nat :=
  l.foldl (fun a c => 10 * a + (c.toNat - 48)) acc

/-- A character list that does not begin with a digit, the shape of the
text that follows a serialized integer. -/
def headNotDigit : List Char → Prop
  | [] => True
  | c :: _ => c.isDigit = false

/-- Folding the ParseCSV loop body appends exactly the successfully
parsed fields, in order, after the accumulator. -/
theorem parseCSV_foldl_aux (parts : List (List Char)) (acc : List Int) :
    parts.foldl parseCSVStep acc
      = acc ++ parts.filterMap (fun v => pyIntOfChars (pyStrip v)) := by
  induction parts generalizing acc with
  | nil => simp
  | cons v rest ih =>
    simp only [List.foldl_cons, List.filterMap_cons]
    cases h : pyIntOfChars (pyStrip v) with
    | none => simp only [parseCSVStep, h, ih]
    | some n =>
      simp only [parseCSVStep, h, ih, List.append_assoc, List.singleton_append]

/-- C2: for every input string, ParseCSV splits it on commas and returns
exactly the list of integers obtained from the fields that parse as
integers after stripping surrounding whitespace, in their original left
to right order, silently dropping every field that does not parse. -/
theorem parseCSV_filterMap_ints (s : String) :
    ParseCSV s = (pySplitComma s.data).filterMap (fun v => pyIntOfChars (pyStrip v)) := by
  unfold ParseCSV
  simpa using parseCSV_foldl_aux (pySplitComma s.data) []

/-- C9: DomoticzDevice.Refresh invokes the host Delete method, the
identical call made by DomoticzDevice.Delete, so both perform the same
host operation and Refresh performs no refresh from database. -/
theorem refresh_performs_delete :
    DomoticzDevice.Refresh = DomoticzDevice.Delete ∧
      DomoticzDevice.Refresh = [HostDeviceCall.delete] :=
  ⟨rfl, rfl⟩

/-- C10: the DomoticzImage properties Name, Base and Description each
return the ID field of the wrapped host image, hence always equal the ID
property and never the host Name, Base or Description strings. -/
theorem image_props_return_id (i : HostImage) :
    DomoticzImage.Name i = DomoticzImage.ID i ∧
    DomoticzImage.Base i = DomoticzImage.ID i ∧
    DomoticzImage.Description i = DomoticzImage.ID i ∧
    DomoticzImage.Name i ≠ PyVal.str i.hostName ∧
    DomoticzImage.Base i ≠ PyVal.str i.hostBase ∧
    DomoticzImage.Description i ≠ PyVal.str i.hostDescription := by
  refine ⟨rfl, rfl, rfl, ?_, ?_, ?_⟩ <;> exact fun h => PyVal.noConfusion h

/-- C7, code evaluation at the failing input: Debugging applied to the
list holding only ShowAll reaches sum(values) because the source repeats
the ShowNone test where a ShowAll test was intended, and summing plain
Enum members raises TypeError, so no bitmask is passed to the host; the
ShowNone case does pass 0 as documented. -/
theorem debugging_showAll_raises_typeError :
    Debugging [DomoticzDebugLevel.ShowAll] = Except.error PyErr.typeError ∧
      Debugging [DomoticzDebugLevel.ShowNone] = Except.ok 0 := by
  constructor <;> rfl

/-- C1 counterexample: CheckParam applied to the Python value None raises
TypeError instead of logging and returning the supplied default, because
the except clause catches only ValueError while int(None) raises
TypeError. -/
theorem checkParam_none_raises_typeError :
    CheckParam "Mode1" PyVal.none 5 = Except.error PyErr.typeError := rfl

/-- C1 amended: CheckParam returns int(value) for every integer value and
every numeric looking string, logs an error and returns the supplied
default for every other string, and for values of non numeric non string
type (None or a list) the TypeError raised by int is not caught and
propagates to the caller. -/
theorem checkParam_parses_or_defaults_or_raises (name : String) (v : PyVal) (d : Int) :
    (∀ n, v = PyVal.int n → CheckParam name v d = .ok (n, [])) ∧
    (∀ s n, v = PyVal.str s → pyIntOfChars s.data = some n →
      CheckParam name v d = .ok (n, [])) ∧
    (∀ s, v = PyVal.str s → pyIntOfChars s.data = Option.none →
      CheckParam name v d = .ok (d, [LogMsg.error (checkParamMsg name v d)])) ∧
    ((v = PyVal.none ∨ ∃ xs, v = PyVal.list xs) →
      CheckParam name v d = .error PyErr.typeError) := by
  refine ⟨?_, ?_, ?_, ?_⟩
  · rintro n rfl
    rfl
  · rintro s n rfl h
    simp only [CheckParam, pyIntCoerce, h]
  · rintro s rfl h
    simp only [CheckParam, pyIntCoerce, h]
  · rintro (rfl | ⟨xs, rfl⟩) <;> rfl

/-- C1 amended, witness: concrete evaluations exercising the parsing, the
defaulting and the raising branches. -/
theorem checkParam_parses_or_defaults_or_raises_witness :
    CheckParam "Mode1" (PyVal.str " 42 ") 5 = .ok (42, []) ∧
    CheckParam "Mode2" (PyVal.str "abc") 7 =
      .ok (7, [LogMsg.error (checkParamMsg "Mode2" (PyVal.str "abc") 7)]) ∧
    CheckParam "Mode3" (PyVal.list [1]) 9 = .error PyErr.typeError :=
  ⟨(checkParam_parses_or_defaults_or_raises "Mode1" (PyVal.str " 42 ") 5).2.1 " 42 " 42 rfl
      (by decide),
   (checkParam_parses_or_defaults_or_raises "Mode2" (PyVal.str "abc") 7).2.2.1 "abc" rfl
      (by decide),
   (checkParam_parses_or_defaults_or_raises "Mode3" (PyVal.list [1]) 9).2.2.2 (Or.inr ⟨[1], rfl⟩)⟩

/-- The request field of a DomoticzAPI result is the built request. -/
theorem domoticzAPI_request_eq (env : Env) (apiCall : String) :
    (DomoticzAPI env apiCall).request = buildRequest env.params apiCall := rfl

/-- The url field of the built request, independent of the username
branch. -/
theorem buildRequest_url (ps : Params) (apiCall : String) :
    (buildRequest ps apiCall).url =
      "http://" ++ ps.Address ++ ":" ++ ps.Port ++ "/json.htm?" ++ pyQuote apiCall := by
  unfold buildRequest
  by_cases h : ps.Username == ""
  · simp [h]
  · simp [h]

/-- Quoting leaves a string of safe characters unchanged, list form. -/
theorem pyQuoteChars_safe (l : List Char) (h : ∀ c ∈ l, isQuoteSafe c = true) :
    pyQuoteChars l = l := by
  induction l with
  | nil => rfl
  | cons c cs ih =>
    have hc : isQuoteSafe c = true := h c (List.mem_cons_self c cs)
    have hcs : ∀ x ∈ cs, isQuoteSafe x = true := fun x hx => h x (List.mem_cons_of_mem c hx)
    simp only [pyQuoteChars, List.foldr_cons, hc, if_true]
    simpa only [pyQuoteChars] using congrArg (c :: ·) (ih hcs)

/-- C6: DomoticzAPI issues an HTTP GET whose url formats the configured
Address and Port around /json.htm with the quoted apiCall as the query
(the quote is the identity on api calls made of safe characters), and it
attaches a basic Authorization header encoding Username:Password exactly
when the configured Username is not empty. -/
theorem domoticzAPI_request_shape (env : Env) (apiCall : String) :
    (DomoticzAPI env apiCall).request = buildRequest env.params apiCall ∧
    (buildRequest env.params apiCall).url =
      "http://" ++ env.params.Address ++ ":" ++ env.params.Port ++ "/json.htm?" ++
        pyQuote apiCall ∧
    (env.params.Username ≠ "" → (buildRequest env.params apiCall).headers =
      [("Authorization", basicAuthToken env.params.Username env.params.Password)]) ∧
    (env.params.Username = "" → (buildRequest env.params apiCall).headers = []) ∧
    ((∀ c ∈ apiCall.data, isQuoteSafe c = true) → pyQuote apiCall = apiCall) := by
  refine ⟨domoticzAPI_request_eq env apiCall, buildRequest_url env.params apiCall, ?_, ?_, ?_⟩
  · intro h
    unfold buildRequest
    rw [if_neg (by simpa using h)]
  · intro h
    unfold buildRequest
    rw [if_pos (by simpa using h)]
  · intro h
    unfold pyQuote
    rw [pyQuoteChars_safe apiCall.data h]

/-- C6 witness: with a configured username the request url is the
formatted one and the basic Authorization header is attached; with an
empty username no header is attached. -/
theorem domoticzAPI_request_shape_witness :
    (buildRequest psAuth getUserVarsCall).headers =
      [("Authorization", basicAuthToken "admin" "secret")] ∧
    (buildRequest psBase getUserVarsCall).headers = [] ∧
    pyQuote getUserVarsCall = getUserVarsCall :=
  ⟨(domoticzAPI_request_shape { params := psAuth, urlopen := fun _ => HttpResult.raised }
      getUserVarsCall).2.2.1 (by decide),
   (domoticzAPI_request_shape envRaised getUserVarsCall).2.2.2.1 rfl,
   (domoticzAPI_request_shape envRaised getUserVarsCall).2.2.2.2 (by decide)⟩

/-- A response with a status code other than 200 produces the http error
log and no result. -/
theorem apiOutcome_non200 (req : UrlRequest) (lg0 : List LogMsg) (st : Nat)
    (body : Option Jv) (h : st ≠ 200) :
    apiOutcome req lg0 (HttpResult.resp st body) =
      (lg0 ++ [LogMsg.error ("Domoticz API: http error = " ++ toString st)], Option.none) := by
  unfold apiOutcome
  simp [h]

/-- A 200 response whose parsed body carries a status field different
from OK produces the api error log and no result. -/
theorem apiOutcome_badStatus (req : UrlRequest) (lg0 : List LogMsg) (j v : Jv)
    (hv : pyGetItem j "status" = Except.ok v) (hne : jvEqStr v "OK" = false) :
    apiOutcome req lg0 (HttpResult.resp 200 (some j)) =
      (lg0 ++ [LogMsg.error ("Domoticz API returned an error: status = " ++ jvStr v)],
        Option.none) := by
  unfold apiOutcome
  simp [hv, hne]

/-- C4: whenever the HTTP boundary returns a response with a status code
other than 200, or a 200 response whose JSON body has a status field
different from OK, DomoticzAPI logs an error and returns None. -/
theorem domoticzAPI_error_yields_none (env : Env) (apiCall : String) :
    (∀ st body, env.urlopen (buildRequest env.params apiCall) = HttpResult.resp st body →
      st ≠ 200 →
      (DomoticzAPI env apiCall).result = Option.none ∧
        ∃ m, LogMsg.error m ∈ (DomoticzAPI env apiCall).log) ∧
    (∀ j v, env.urlopen (buildRequest env.params apiCall) = HttpResult.resp 200 (some j) →
      pyGetItem j "status" = Except.ok v → jvEqStr v "OK" = false →
      (DomoticzAPI env apiCall).result = Option.none ∧
        ∃ m, LogMsg.error m ∈ (DomoticzAPI env apiCall).log) := by
  constructor
  · intro st body h1 h2
    have hr : (DomoticzAPI env apiCall).result
        = (apiOutcome (buildRequest env.params apiCall)
            (apiCallLogs env.params (buildRequest env.params apiCall))
            (env.urlopen (buildRequest env.params apiCall))).2 := rfl
    have hl : (DomoticzAPI env apiCall).log
        = (apiOutcome (buildRequest env.params apiCall)
            (apiCallLogs env.params (buildRequest env.params apiCall))
            (env.urlopen (buildRequest env.params apiCall))).1 := rfl
    rw [h1, apiOutcome_non200 _ _ _ _ h2] at hr hl
    refine ⟨hr, "Domoticz API: http error = " ++ toString st, ?_⟩
    rw [hl]
    simp
  · intro j v h1 hv hne
    have hr : (DomoticzAPI env apiCall).result
        = (apiOutcome (buildRequest env.params apiCall)
            (apiCallLogs env.params (buildRequest env.params apiCall))
            (env.urlopen (buildRequest env.params apiCall))).2 := rfl
    have hl : (DomoticzAPI env apiCall).log
        = (apiOutcome (buildRequest env.params apiCall)
            (apiCallLogs env.params (buildRequest env.params apiCall))
            (env.urlopen (buildRequest env.params apiCall))).1 := rfl
    rw [h1, apiOutcome_badStatus _ _ _ _ hv hne] at hr hl
    refine ⟨hr, "Domoticz API returned an error: status = " ++ jvStr v, ?_⟩
    rw [hl]
    simp

/-- C4 witness: a concrete 404 answer and a concrete 200 answer with an
ERR status both yield no result and an error log. -/
theorem domoticzAPI_error_yields_none_witness :
    ((DomoticzAPI env404 getVersionCall).result = Option.none ∧
      ∃ m, LogMsg.error m ∈ (DomoticzAPI env404 getVersionCall).log) ∧
    ((DomoticzAPI envErrStatus getVersionCall).result = Option.none ∧
      ∃ m, LogMsg.error m ∈ (DomoticzAPI envErrStatus getVersionCall).log) :=
  ⟨(domoticzAPI_error_yields_none env404 getVersionCall).1 404 Option.none rfl (by decide),
   (domoticzAPI_error_yields_none envErrStatus getVersionCall).2
      (Jv.obj [("status", Jv.str "ERR")]) (Jv.str "ERR") rfl rfl rfl⟩

/-- A raise at the HTTP boundary produces the error calling log and no
result. -/
theorem apiOutcome_raised (req : UrlRequest) (lg0 : List LogMsg) :
    apiOutcome req lg0 HttpResult.raised =
      (lg0 ++ [LogMsg.error ("Error calling \x27" ++ req.url ++ "\x27")], Option.none) := rfl

/-- C5 counterexample: an exception can escape GetUserVar. With a host
answer of status OK whose result list holds an entry without a Name
field, the subscription on line 155 of DomoticzPluginHelper.py raises
KeyError outside any try block, so the failure propagates to the caller
instead of being logged and defaulted. -/
theorem getUserVar_propagates_keyError :
    GetUserVar envBadEntry defaultsEx internalsEx = Except.error PyErr.keyError := rfl

/-- C5 amended: DomoticzAPI converts every raise at the HTTP boundary
into an error log and a None result; CheckParam falls back to the
supplied default for every string value that fails to parse, but a value
of non numeric non string type raises TypeError to the caller; and
GetUserVar can propagate exceptions raised by malformed host responses
(shown separately on a concrete input). -/
theorem failures_logged_and_defaulted_amended :
    (∀ env apiCall, env.urlopen (buildRequest env.params apiCall) = HttpResult.raised →
      (DomoticzAPI env apiCall).result = Option.none ∧
        ∃ m, LogMsg.error m ∈ (DomoticzAPI env apiCall).log) ∧
    (∀ name s d, ∃ r, CheckParam name (PyVal.str s) d = Except.ok r) ∧
    (∀ name v d, (v = PyVal.none ∨ ∃ xs, v = PyVal.list xs) →
      CheckParam name v d = Except.error PyErr.typeError) := by
  refine ⟨?_, ?_, ?_⟩
  · intro env apiCall h1
    have hr : (DomoticzAPI env apiCall).result
        = (apiOutcome (buildRequest env.params apiCall)
            (apiCallLogs env.params (buildRequest env.params apiCall))
            (env.urlopen (buildRequest env.params apiCall))).2 := rfl
    have hl : (DomoticzAPI env apiCall).log
        = (apiOutcome (buildRequest env.params apiCall)
            (apiCallLogs env.params (buildRequest env.params apiCall))
            (env.urlopen (buildRequest env.params apiCall))).1 := rfl
    rw [h1, apiOutcome_raised] at hr hl
    refine ⟨hr, "Error calling \x27" ++ (buildRequest env.params apiCall).url ++ "\x27", ?_⟩
    rw [hl]
    simp
  · intro name s d
    unfold CheckParam pyIntCoerce
    cases h : pyIntOfChars s.data with
    | none => exact ⟨(d, [LogMsg.error (checkParamMsg name (PyVal.str s) d)]), by simp [h]⟩
    | some n => exact ⟨(n, []), by simp [h]⟩
  · rintro name v d (rfl | ⟨xs, rfl⟩) <;> rfl

/-- C5 amended, witness: concrete evaluations of the raising boundary,
the parsing fallback and the propagating TypeError. -/
theorem failures_logged_and_defaulted_amended_witness :
    ((DomoticzAPI envRaised getUserVarsCall).result = Option.none ∧
      ∃ m, LogMsg.error m ∈ (DomoticzAPI envRaised getUserVarsCall).log) ∧
    (∃ r, CheckParam "Mode1" (PyVal.str "7") 3 = Except.ok r) ∧
    CheckParam "Mode2" PyVal.none 3 = Except.error PyErr.typeError :=
  ⟨failures_logged_and_defaulted_amended.1 envRaised getUserVarsCall rfl,
   failures_logged_and_defaulted_amended.2.1 "Mode1" "7" 3,
   failures_logged_and_defaulted_amended.2.2 "Mode2" PyVal.none 3 (Or.inl rfl)⟩

/-- C8 counterexample: the user variable is absent from the host answer,
yet GetUserVar does not reset the internals to the defaults: the version
lookup on line 176 of DomoticzPluginHelper.py raises KeyError because the
status OK getversion answer lacks a dzvents_version field, and the
exception escapes before the reset on line 186 is reached. -/
theorem getUserVar_absent_var_without_reset :
    GetUserVar envNoVarBadVersion defaultsEx internalsEx = Except.error PyErr.keyError := rfl

/-- C8 amended: provided the host responses are well formed enough for
GetUserVar not to raise (the result scan and, on the creation path, the
version selection complete normally), the internals are reset to the
default mapping whenever the api call yields no result, the persisted
variable is absent, or its stored value does not parse back into a
mapping; a malformed response instead propagates an exception. -/
theorem getUserVar_resets_to_defaults_amended (env : Env) (defaults internals : Dict) :
    ((DomoticzAPI env getUserVarsCall).result = Option.none →
      ∃ lg, GetUserVar env defaults internals = Except.ok (defaults, lg)) ∧
    (∀ j, (DomoticzAPI env getUserVarsCall).result = some j → jvTruthy j = true →
      lookupVar j (env.params.Name ++ "-InternalVariables") = Except.ok Option.none →
      (∃ r, chooseSaveParam env = Except.ok r) →
      ∃ lg, GetUserVar env defaults internals = Except.ok (defaults, lg)) ∧
    (∀ j vs, (DomoticzAPI env getUserVarsCall).result = some j → jvTruthy j = true →
      lookupVar j (env.params.Name ++ "-InternalVariables") = Except.ok (some vs) →
      pyEvalUpdate internals vs = Option.none →
      ∃ lg, GetUserVar env defaults internals = Except.ok (defaults, lg)) := by
  refine ⟨?_, ?_, ?_⟩
  · intro h
    have e : GetUserVar env defaults internals = Except.ok (defaults,
        (DomoticzAPI env getUserVarsCall).log ++ [LogMsg.error cannotReadMsg]) := by
      simp only [GetUserVar, h]
    exact ⟨_, e⟩
  · rintro j h ht hl ⟨⟨p, lg2⟩, hsp⟩
    have e : GetUserVar env defaults internals = Except.ok (defaults,
        (DomoticzAPI env getUserVarsCall).log ++
          [LogMsg.log (noVarMsg (env.params.Name ++ "-InternalVariables"))] ++ lg2 ++
          (DomoticzAPI env ("type=command&param=" ++ p ++ "&vname=" ++
            (env.params.Name ++ "-InternalVariables") ++ "&vtype=2&vvalue=" ++
            String.mk (reprDict defaults))).log) := by
      simp only [GetUserVar, h, ht, hl, hsp, if_true]
    exact ⟨_, e⟩
  · intro j vs h ht hl hev
    have e : GetUserVar env defaults internals = Except.ok (defaults,
        (DomoticzAPI env getUserVarsCall).log) := by
      simp only [GetUserVar, h, ht, hl, hev, if_true]
    exact ⟨_, e⟩

/-- C8 amended, witness: with a raising boundary the internals are reset
with an error log, and with a stored value that does not parse the
internals are likewise reset. -/
theorem getUserVar_resets_to_defaults_amended_witness :
    (∃ lg, GetUserVar envRaised defaultsEx internalsEx = Except.ok (defaultsEx, lg)) ∧
    (∃ lg, GetUserVar envCorrupt defaultsEx internalsEx = Except.ok (defaultsEx, lg)) :=
  ⟨(getUserVar_resets_to_defaults_amended envRaised defaultsEx internalsEx).1 rfl,
   (getUserVar_resets_to_defaults_amended envCorrupt defaultsEx internalsEx).2.2
      (Jv.obj [("status", Jv.str "OK"),
        ("result", Jv.arr [Jv.obj [("Name", Jv.str "SVT-InternalVariables"),
          ("Value", Jv.str "garbage")]])])
      (Jv.str "garbage") rfl rfl rfl rfl⟩

/-- Digit characters produced by Nat.digitChar are digits. -/
theorem digitChar_isDigit (d : Nat) (h : d < 10) : (Nat.digitChar d).isDigit = true := by
  interval_cases d <;> decide

/-- The numeric value of a digit character produced by Nat.digitChar. -/
theorem digitChar_val (d : Nat) (h : d < 10) : (Nat.digitChar d).toNat - 48 = d := by
  interval_cases d <;> decide

/-- valAcc distributes over list append. -/
theorem valAcc_append (acc : Nat) (l1 l2 : List Char) :
    valAcc acc (l1 ++ l2) = valAcc (valAcc acc l1) l2 := by
  simp [valAcc, List.foldl_append]

/-- Every character emitted by reprNatAux is a digit. -/
theorem reprNatAux_all_digits (fuel : Nat) :
    ∀ n, n ≤ fuel → ∀ c ∈ reprNatAux fuel n, c.isDigit = true := by
  induction fuel with
  | zero =>
    intro n h c hc
    simp [reprNatAux] at hc
  | succ f ih =>
    intro n h c hc
    unfold reprNatAux at hc
    by_cases hn : n < 10
    · rw [if_pos hn] at hc
      simp only [List.mem_singleton] at hc
      subst hc
      exact digitChar_isDigit n hn
    · rw [if_neg hn] at hc
      rcases List.mem_append.mp hc with h1 | h2
      · exact ih (n / 10) (by omega) c h1
      · simp only [List.mem_singleton] at h2
        subst h2
        exact digitChar_isDigit (n % 10) (Nat.mod_lt _ (by norm_num))

/-- Reading back the digits of reprNatAux on top of an accumulator scales
the accumulator by the emitted length and adds the number. -/
theorem valAcc_reprNatAux (fuel : Nat) :
    ∀ n acc, n ≤ fuel →
      valAcc acc (reprNatAux fuel n) = acc * 10 ^ (reprNatAux fuel n).length + n := by
  induction fuel with
  | zero =>
    intro n acc h
    have hn : n = 0 := by omega
    subst hn
    simp [reprNatAux, valAcc]
  | succ f ih =>
    intro n acc h
    unfold reprNatAux
    by_cases hn : n < 10
    · rw [if_pos hn]
      simp only [valAcc, List.foldl_cons, List.foldl_nil, List.length_singleton, pow_one]
      rw [digitChar_val n hn]
      ring
    · rw [if_neg hn]
      rw [valAcc_append, ih (n / 10) acc (by omega)]
      simp only [valAcc, List.foldl_cons, List.foldl_nil, List.length_append,
        List.length_singleton]
      rw [digitChar_val (n % 10) (Nat.mod_lt _ (by norm_num))]
      have hdm : 10 * (n / 10) + n % 10 = n := Nat.div_add_mod n 10
      set L := (reprNatAux f (n / 10)).length
      calc 10 * (acc * 10 ^ L + n / 10) + n % 10
          = acc * (10 ^ L * 10) + (10 * (n / 10) + n % 10) := by ring
        _ = acc * 10 ^ (L + 1) + n := by rw [hdm, pow_succ]

/-- The greedy digit consumer crosses a digit block and stops at the
first non digit. -/
theorem parseNatAux_digits (l : List Char) :
    ∀ acc rest, (∀ c ∈ l, c.isDigit = true) → headNotDigit rest →
      parseNatAux acc (l ++ rest) = (valAcc acc l, rest) := by
  induction l with
  | nil =>
    intro acc rest _ hrest
    cases rest with
    | nil => simp [parseNatAux, valAcc]
    | cons c cs =>
      simp only [List.nil_append, parseNatAux]
      have hc : c.isDigit = false := hrest
      rw [if_neg (by simp [hc])]
      simp [valAcc]
  | cons c cs ih =>
    intro acc rest hl hrest
    have hc : c.isDigit = true := hl c (List.mem_cons_self c cs)
    simp only [List.cons_append, parseNatAux, hc, if_true, List.append_eq]
    rw [ih _ rest (fun x hx => hl x (List.mem_cons_of_mem c hx)) hrest]
    simp [valAcc]

/-- reprNatAux with positive fuel emits at least one character. -/
theorem reprNatAux_cons (fuel : Nat) :
    ∀ n, n < fuel → ∃ c cs, reprNatAux fuel n = c :: cs := by
  induction fuel with
  | zero => intro n h; omega
  | succ f ih =>
    intro n h
    unfold reprNatAux
    by_cases hn : n < 10
    · exact ⟨Nat.digitChar n, [], by rw [if_pos hn]⟩
    · rw [if_neg hn]
      obtain ⟨c, cs, hc⟩ := ih (n / 10) (by omega)
      exact ⟨c, cs ++ [Nat.digitChar (n % 10)], by rw [hc]; rfl⟩

/-- Parsing the decimal image of a natural number recovers it and leaves
the non digit tail untouched. -/
theorem reprNat_parse (n : Nat) (rest : List Char) (hrest : headNotDigit rest) :
    parseNatPos (reprNat n ++ rest) = some (n, rest) := by
  obtain ⟨c, cs, hc⟩ := reprNatAux_cons (n + 1) n (by omega)
  have hall := reprNatAux_all_digits (n + 1) n (by omega)
  have hcd : c.isDigit = true := hall c (by rw [hc]; exact List.mem_cons_self c cs)
  have hcsd : ∀ x ∈ cs, x.isDigit = true := fun x hx =>
    hall x (by rw [hc]; exact List.mem_cons_of_mem c hx)
  have hval : valAcc 0 (c :: cs) = n := by
    have := valAcc_reprNatAux (n + 1) n 0 (by omega)
    rw [hc] at this
    simpa using this
  unfold reprNat
  rw [hc]
  simp only [List.cons_append, parseNatPos, hcd, if_true]
  rw [parseNatAux_digits cs _ rest hcsd hrest]
  have : valAcc (c.toNat - 48) cs = n := by
    simpa [valAcc] using hval
  rw [this]

/-- A digit character is not the dash character. -/
theorem isDigit_ne_dash (c : Char) (h : c.isDigit = true) : ¬ (c = '-') := by
  intro he
  rw [he] at h
  exact absurd h (by decide)

/-- Parsing the decimal image of an integer recovers it. -/
theorem reprInt_parse (v : Int) (rest : List Char) (hrest : headNotDigit rest) :
    parseIntLit (reprInt v ++ rest) = some (v, rest) := by
  unfold reprInt
  by_cases hv : v < 0
  · rw [if_pos hv]
    simp only [List.cons_append, parseIntLit, if_pos rfl]
    rw [reprNat_parse v.natAbs rest hrest]
    have hva : -((v.natAbs : Int)) = v := by omega
    show some (-((v.natAbs : Int)), rest) = some (v, rest)
    rw [hva]
  · rw [if_neg hv]
    obtain ⟨c, cs, hc⟩ := reprNatAux_cons (v.toNat + 1) v.toNat (by omega)
    have hall := reprNatAux_all_digits (v.toNat + 1) v.toNat (by omega)
    have hcd : c.isDigit = true := hall c (by rw [hc]; exact List.mem_cons_self c cs)
    have hshape : reprNat v.toNat = c :: cs := hc
    rw [hshape]
    simp only [List.cons_append, parseIntLit]
    rw [if_neg (isDigit_ne_dash c hcd)]
    rw [show c :: (cs ++ rest) = (c :: cs) ++ rest from rfl, ← hshape]
    rw [reprNat_parse v.toNat rest hrest]
    have hva : ((v.toNat : Int)) = v := by omega
    show some (((v.toNat : Int)), rest) = some (v, rest)
    rw [hva]

/-- Key characters are consumed up to the closing quote. -/
theorem parseKeyChars_append (k : List Char) :
    ∀ rest, (∀ c ∈ k, c ≠ squote) →
      parseKeyChars (k ++ squote :: rest) = some (k, rest) := by
  induction k with
  | nil =>
    intro rest _
    simp [parseKeyChars]
  | cons c cs ih =>
    intro rest hk
    have hc : c ≠ squote := hk c (List.mem_cons_self c cs)
    simp only [List.cons_append, parseKeyChars, List.append_eq]
    rw [if_neg hc]
    simp only [ih rest (fun x hx => hk x (List.mem_cons_of_mem c hx))]

/-- A cons list whose head is not a digit satisfies headNotDigit. -/
theorem headNotDigit_cons (c : Char) (l : List Char) (h : c.isDigit = false) :
    headNotDigit (c :: l) := h

/-- Parsing one serialized entry recovers it and leaves the tail. -/
theorem parseEntry_repr (e : String × Int) (rest : List Char)
    (hk : ∀ c ∈ (e.1 : String).data, c ≠ squote) (hrest : headNotDigit rest) :
    parseEntry (reprEntry e ++ rest) = some (e, rest) := by
  have hkey : ∀ r, parseKeyChars (e.1.data ++ squote :: r) = some (e.1.data, r) :=
    fun r => parseKeyChars_append e.1.data r hk
  have htake : (':' :: ' ' :: (reprInt e.2 ++ rest)).take 2 = [':', ' '] := rfl
  have hdrop : (':' :: ' ' :: (reprInt e.2 ++ rest)).drop 2 = reprInt e.2 ++ rest := rfl
  unfold reprEntry
  simp only [List.cons_append, List.append_assoc, parseEntry, eq_self_iff_true, if_true,
    hkey, htake, hdrop, reprInt_parse e.2 rest hrest]

/-- The serialized entries of a nonempty dict parse back, leaving the
closing brace. -/
theorem parseEntriesAux_repr (d : Dict) :
    ∀ fuel, d ≠ [] → d.length ≤ fuel →
      (∀ p ∈ d, ∀ c ∈ (p.1 : String).data, c ≠ squote) →
      parseEntriesAux fuel (reprEntries d ++ [rbrace]) = some (d, [rbrace]) := by
  induction d with
  | nil => intro fuel h; exact absurd rfl h
  | cons e tail ih =>
    intro fuel _ hfuel hk
    cases fuel with
    | zero => simp at hfuel
    | succ f =>
      have hke : ∀ c ∈ (e.1 : String).data, c ≠ squote :=
        hk e (List.mem_cons_self e tail)
      have hktail : ∀ p ∈ tail, ∀ c ∈ (p.1 : String).data, c ≠ squote :=
        fun p hp => hk p (List.mem_cons_of_mem e hp)
      cases tail with
      | nil =>
        have hnotcomma : ¬ (([rbrace] : List Char).take 2 = [',', ' ']) := by decide
        simp only [reprEntries]
        unfold parseEntriesAux
        simp only [parseEntry_repr e [rbrace] hke (headNotDigit_cons rbrace [] (by decide)),
          hnotcomma, if_false]
      | cons e2 t2 =>
        have hih : parseEntriesAux f (reprEntries (e2 :: t2) ++ [rbrace])
            = some (e2 :: t2, [rbrace]) := by
          refine ih f (by simp) ?_ hktail
          simp only [List.length_cons] at hfuel ⊢
          omega
        have htake : ((',' :: ' ' :: (reprEntries (e2 :: t2) ++ [rbrace])) : List Char).take 2
            = [',', ' '] := rfl
        have hdrop : ((',' :: ' ' :: (reprEntries (e2 :: t2) ++ [rbrace])) : List Char).drop 2
            = reprEntries (e2 :: t2) ++ [rbrace] := rfl
        simp only [reprEntries]
        unfold parseEntriesAux
        rw [show (reprEntry e ++ ',' :: ' ' :: reprEntries (e2 :: t2)) ++ [rbrace]
            = reprEntry e ++ (',' :: ' ' :: (reprEntries (e2 :: t2) ++ [rbrace])) from by
          simp [List.append_assoc]]
        simp only [parseEntry_repr e (',' :: ' ' :: (reprEntries (e2 :: t2) ++ [rbrace])) hke
            (headNotDigit_cons ',' (' ' :: (reprEntries (e2 :: t2) ++ [rbrace])) (by decide)),
          htake, hdrop, hih, eq_self_iff_true, if_true]

/-- Each serialized entry list is at least as long as the dict. -/
theorem reprEntries_length (d : Dict) : d.length ≤ (reprEntries d).length := by
  induction d with
  | nil => simp [reprEntries]
  | cons e tail ih =>
    cases tail with
    | nil => simp [reprEntries, reprEntry]
    | cons e2 t2 =>
      have h1 : 1 ≤ (reprEntry e).length := by simp [reprEntry]
      simp only [reprEntries, List.length_append, List.length_cons] at ih ⊢
      omega

/-- The serialized entries of a nonempty dict start with a quote. -/
theorem reprEntries_cons_squote (e : String × Int) (tail : Dict) :
    ∃ X, reprEntries (e :: tail) = squote :: X := by
  cases tail with
  | nil => exact ⟨_, rfl⟩
  | cons e2 t2 => exact ⟨_, rfl⟩

/-- The eval model inverts the repr model on dicts with quote free keys. -/
theorem evalDictChars_reprDict (d : Dict)
    (hk : ∀ p ∈ d, ∀ c ∈ (p.1 : String).data, c ≠ squote) :
    evalDictChars (reprDict d) = some d := by
  cases d with
  | nil => rfl
  | cons e tail =>
    obtain ⟨X, hX⟩ := reprEntries_cons_squote e tail
    have hne : reprEntries (e :: tail) ++ [rbrace] ≠ [rbrace] := by
      rw [hX]
      intro hcontra
      simp only [List.cons_append] at hcontra
      injection hcontra with h1 h2
      exact absurd h1 (by decide)
    have hlen : (e :: tail).length ≤ (reprEntries (e :: tail) ++ [rbrace]).length := by
      have := reprEntries_length (e :: tail)
      simp only [List.length_append, List.length_singleton]
      omega
    have hpe := parseEntriesAux_repr (e :: tail)
      ((reprEntries (e :: tail) ++ [rbrace]).length) (by simp) hlen hk
    unfold reprDict
    simp only [evalDictChars, List.head?_cons, List.tail_cons, eq_self_iff_true, if_true,
      hne, if_false, hpe]

/-- Writing a binding already present in a dict with distinct keys leaves
the dict unchanged. -/
theorem pySetItem_self (d : Dict) (k : String) (v : Int) :
    (k, v) ∈ d → (d.map Prod.fst).Nodup → pySetItem d k v = d := by
  induction d with
  | nil => intro hmem; simp at hmem
  | cons p t ih =>
    intro hmem hnd
    obtain ⟨k0, v0⟩ := p
    simp only [pySetItem]
    by_cases hk : k0 = k
    · subst hk
      rw [if_pos rfl]
      rcases List.mem_cons.mp hmem with he | ht
      · injection he with h1 h2
        rw [h2]
      · exfalso
        have hknotin : k0 ∉ t.map Prod.fst := (List.nodup_cons.mp hnd).1
        exact hknotin (List.mem_map.mpr ⟨(k0, v), ht, rfl⟩)
    · rw [if_neg hk]
      rcases List.mem_cons.mp hmem with he | ht
      · exfalso
        injection he with h1 h2
        exact hk h1.symm
      · rw [ih ht (List.nodup_cons.mp hnd).2]

/-- A fold whose step fixes the base leaves the base unchanged. -/
theorem foldl_fixed {α β : Type} (f : α → β → α) (b : α) (l : List β)
    (h : ∀ x ∈ l, f b x = b) : l.foldl f b = b := by
  induction l with
  | nil => rfl
  | cons x t ih =>
    rw [List.foldl_cons, h x (List.mem_cons_self x t)]
    exact ih (fun y hy => h y (List.mem_cons_of_mem x hy))

/-- Updating a dict with distinct keys by itself is the identity, the
Python d.update(d) law. -/
theorem pyDictUpdate_self (d : Dict) (hnd : (d.map Prod.fst).Nodup) :
    pyDictUpdate d d = d := by
  unfold pyDictUpdate
  exact foldl_fixed _ d d (fun kv hkv => pySetItem_self d kv.1 kv.2 (by simpa using hkv) hnd)

/-- After a host store write, looking the written name up returns the
written value. -/
theorem hostSetVar_lookup (l : List (String × String)) (n v : String) :
    List.lookup n (hostSetVar l n v) = some v := by
  induction l with
  | nil => simp [hostSetVar, List.lookup]
  | cons p t ih =>
    obtain ⟨n0, v0⟩ := p
    simp only [hostSetVar]
    by_cases h : n0 = n
    · subst h
      rw [if_pos rfl]
      simp [List.lookup]
    · rw [if_neg h]
      have hne : (n == n0) = false := beq_eq_false_iff_ne.mpr (Ne.symm h)
      simp [List.lookup, hne, ih]

/-- The result scan over the host store entries returns the value of the
first binding of the sought name, as an OK outcome. -/
theorem findVarLoop_map (varname : String) (l : List (String × String)) :
    findVarLoop varname (l.map storeEntry) = Except.ok ((List.lookup varname l).map Jv.str) := by
  induction l with
  | nil => rfl
  | cons p t ih =>
    obtain ⟨n, v⟩ := p
    by_cases h : n = varname
    · subst h
      simp [findVarLoop, storeEntry, pyGetItem, jvEqStr, List.lookup]
    · have hne1 : (n == varname) = false := beq_eq_false_iff_ne.mpr h
      have hne2 : (varname == n) = false := beq_eq_false_iff_ne.mpr (Ne.symm h)
      simp [findVarLoop, storeEntry, pyGetItem, jvEqStr, List.lookup, hne1, hne2, ih]

/-- The scan of a getuservariables body reduces to the loop over the
store entries. -/
theorem lookupVar_varsToJson (vars : List (String × String)) (vn : String) :
    lookupVar (varsToJson vars) vn = findVarLoop vn (vars.map storeEntry) := by
  simp [lookupVar, varsToJson, pyContains, pyGetItem]

/-- The parameters of a store backed environment. -/
theorem storeEnv_params (ps : Params) (st : HostStore) : (storeEnv ps st).params = ps := rfl

/-- Reading the user variables from a store backed environment yields the
JSON encoding of the store. -/
theorem storeEnv_getUserVars (ps : Params) (st : HostStore) :
    (DomoticzAPI (storeEnv ps st) getUserVarsCall).result = some (varsToJson st.vars) := by
  have hre : (storeEnv ps st).urlopen (buildRequest ps getUserVarsCall) =
      HttpResult.resp 200 (some (varsToJson st.vars)) := by
    simp only [storeEnv]
    rw [if_pos (buildRequest_url ps getUserVarsCall)]
  have hr : (DomoticzAPI (storeEnv ps st) getUserVarsCall).result
      = (apiOutcome (buildRequest ps getUserVarsCall)
          (apiCallLogs ps (buildRequest ps getUserVarsCall))
          ((storeEnv ps st).urlopen (buildRequest ps getUserVarsCall))).2 := rfl
  rw [hr, hre]
  simp [apiOutcome, varsToJson, pyGetItem, jvEqStr]

/-- Repr safe key characters are not the quote character. -/
theorem keyCharOK_ne_squote (c : Char) (h : keyCharOK c = true) : c ≠ squote := by
  intro he
  rw [he] at h
  exact absurd h (by decide)

/-- C3: a SaveUserVar write followed by a GetUserVar read restores the
original mapping into the internals, for every well formed mapping and
every prior store content, under the reliable store assumption built into
the store backed environment. The read takes the found branch, eval
inverts str, and dict.update of a mapping by itself is the identity. -/
theorem saveUserVar_getUserVar_roundtrip (ps : Params) (store : HostStore)
    (defaults internals : Dict) (hwf : DictWF internals) :
    ∃ lg, GetUserVar (storeEnv ps (SaveUserVar ps store internals)) defaults internals
      = Except.ok (internals, lg) := by
  have h1 : (DomoticzAPI (storeEnv ps (SaveUserVar ps store internals)) getUserVarsCall).result
      = some (varsToJson (SaveUserVar ps store internals).vars) :=
    storeEnv_getUserVars ps (SaveUserVar ps store internals)
  have ht : jvTruthy (varsToJson (SaveUserVar ps store internals).vars) = true := rfl
  have hval : List.lookup (ps.Name ++ "-InternalVariables") (SaveUserVar ps store internals).vars
      = some (String.mk (reprDict internals)) :=
    hostSetVar_lookup store.vars (ps.Name ++ "-InternalVariables") (String.mk (reprDict internals))
  have hl : lookupVar (varsToJson (SaveUserVar ps store internals).vars)
      (ps.Name ++ "-InternalVariables")
      = Except.ok (some (Jv.str (String.mk (reprDict internals)))) := by
    rw [lookupVar_varsToJson, findVarLoop_map, hval]
    rfl
  have hkeys : ∀ p ∈ internals, ∀ c ∈ (p.1 : String).data, c ≠ squote :=
    fun p hp c hc => keyCharOK_ne_squote c (hwf.2 p hp c hc)
  have hev : pyEvalUpdate internals (Jv.str (String.mk (reprDict internals)))
      = some internals := by
    show Option.map (pyDictUpdate internals) (evalDictChars (reprDict internals))
      = some internals
    rw [evalDictChars_reprDict internals hkeys, Option.map_some',
      pyDictUpdate_self internals hwf.1]
  have e : GetUserVar (storeEnv ps (SaveUserVar ps store internals)) defaults internals
      = Except.ok (internals,
        (DomoticzAPI (storeEnv ps (SaveUserVar ps store internals)) getUserVarsCall).log) := by
    simp only [GetUserVar, storeEnv_params, h1, ht, hl, hev, if_true]
  exact ⟨_, e⟩

/-- C3 witness: a concrete round trip through an initially empty store
restores a concrete two key mapping. -/
theorem saveUserVar_getUserVar_roundtrip_witness :
    ∃ lg, GetUserVar (storeEnv psBase (SaveUserVar psBase ⟨[]⟩ internalsEx)) defaultsEx internalsEx
      = Except.ok (internalsEx, lg) :=
  saveUserVar_getUserVar_roundtrip psBase ⟨[]⟩ defaultsEx internalsEx (by decide)
